import Mathlib

/-!
Verification of the sampling/differencing/ranking engine of `atlas.stats`
(`pkg/stats/stats.go`), shallowly embedded in Lean 4.

Modelling conventions:
* Go `uint64` fields become `Nat`; `int32` PIDs become `Int`.
* Go `float64` values (CPU percentages, wall-clock seconds) are modelled as
  exact rationals `ℚ`; the conversion `uint64(float64 ...)` of a
  non-negative quotient truncates toward zero, modelled as `Int.floor`
  followed by `Int.toNat`.
* The OS-metrics provider (gopsutil) is an external collaborator: one poll
  consumes an `Env` value recording the outcome of every provider query the
  poll may issue.  A failing query is `none`.
* Go maps (`m.procs`, `m.lastStats`) are association lists with
  insert-or-replace (`upsert`); lookup is by key equality.
* `sort.SliceStable(x, less)` is modelled by `List.mergeSort` with the
  non-strict order `le a b := !(less b a)`; both are stable sorts, and the
  stably-sorted output of a total preorder is unique.
-/

namespace Atlas

/-- `ProcessInfo` of `stats.go` (one process's metrics at one poll).
The Go field `DiskIO` (cumulative read+write bytes) is rendered
`DiskBytes` here; `DiskRate` is bytes per second. -/
structure ProcessInfo where
  PID : Int
  Name : String
  CPU : ℚ
  Mem : Nat
  DiskBytes : Nat
  DiskRate : Nat
  NetConns : Nat
deriving DecidableEq

/-- `DiskInfo` of `stats.go` (one mounted filesystem's usage). -/
structure DiskInfo where
  Path : String
  Total : Nat
  Used : Nat
  Free : Nat
  UsedPercent : ℚ
deriving DecidableEq

/-- `SystemStats` of `stats.go`; field defaults are the Go zero values
(`var s SystemStats`). -/
structure SystemStats where
  CPUUsage : ℚ := 0
  MemoryTotal : Nat := 0
  MemoryUsed : Nat := 0
  MemoryFree : Nat := 0
  Disks : List DiskInfo := []
  Uptime : Nat := 0
  Hostname : String := ""
  OS : String := ""
  Platform : String := ""
  NetSent : Nat := 0
  NetRecv : Nat := 0
  TopCPU : List ProcessInfo := []
  TopMem : List ProcessInfo := []
  TopDisk : List ProcessInfo := []
  TopNet : List ProcessInfo := []
deriving DecidableEq

/-- An opaque provider process handle (`*process.Process`), cached per PID. -/
structure ProcHandle where
  hpid : Int
deriving DecidableEq

/-- `Monitor` of `stats.go`: the engine state.  The two Go maps are
association lists keyed by PID; `lastTime` is wall-clock seconds. -/
structure Monitor where
  procs : List (Int × ProcHandle)
  lastStats : List (Int × ProcessInfo)
  lastTime : ℚ
deriving DecidableEq

/-- `NewMonitor` of `stats.go`, parameterised by the creation time. -/
def NewMonitor (now : ℚ) : Monitor :=
  { procs := [], lastStats := [], lastTime := now }

/-- Result of `disk.Partitions`: one partition entry. -/
structure PartitionStat where
  device : String
  mountpoint : String
deriving DecidableEq

/-- Result of `disk.Usage` for one mountpoint. -/
structure UsageStat where
  total : Nat
  used : Nat
  free : Nat
  usedPercent : ℚ
deriving DecidableEq

/-- Result of `mem.VirtualMemory`. -/
structure VirtualMemoryStat where
  total : Nat
  used : Nat
  free : Nat
deriving DecidableEq

/-- Result of `host.Info`. -/
structure HostInfoStat where
  uptime : Nat
  hostname : String
  os : String
  platform : String
deriving DecidableEq

/-- One entry of `net.IOCounters`. -/
structure NetCountersStat where
  bytesSent : Nat
  bytesRecv : Nat
deriving DecidableEq

/-- Outcomes of the per-PID provider queries issued inside the process loop.
`none` means the query returned an error (for `memoryInfo`, also a nil
record); `ioBytes` carries `(ReadBytes, WriteBytes)`. -/
structure ProcQueries where
  newProc : Option ProcHandle
  name : Option String
  cpuPercent : Option ℚ
  memoryRSS : Option Nat
  ioBytes : Option (Nat × Nat)
  connections : Option Nat

/-- One poll's view of the OS-metrics provider: the outcome of every query
`GetStats` may issue, plus the wall clock `now` in seconds. -/
structure Env where
  cpuPercent : Option (List ℚ)
  virtualMemory : Option VirtualMemoryStat
  partitions : Option (List PartitionStat)
  usage : String → Option UsageStat
  hostInfo : Option HostInfoStat
  netCounters : Option (List NetCountersStat)
  pids : Option (List Int)
  proc : Int → ProcQueries
  now : ℚ

/-- Go map assignment `m[k] = v` on an association list: replace the first
binding of `k`, or append a new binding. -/
def upsert {α : Type} (k : Int) (v : α) : List (Int × α) → List (Int × α)
  | [] => [(k, v)]
  | (k', v') :: rest =>
      if k' = k then (k, v) :: rest else (k', v') :: upsert k v rest

/-- The four inline Go comparator closures of `GetStats` share one shape:
`if f(p1) != f(p2) { return f(p1) > f(p2) }; return p1.PID < p2.PID`.
`metricCmp f` is that closure for metric selector `f`. -/
def metricCmp {M : Type} [LinearOrder M] (f : ProcessInfo → M)
    (p1 p2 : ProcessInfo) : Bool :=
  if f p1 ≠ f p2 then decide (f p1 > f p2) else decide (p1.PID < p2.PID)

/-- The comparator passed for `s.TopCPU`. -/
def cmpCPU : ProcessInfo → ProcessInfo → Bool :=
  metricCmp (fun p => p.CPU)

/-- The comparator passed for `s.TopMem`. -/
def cmpMem : ProcessInfo → ProcessInfo → Bool :=
  metricCmp (fun p => p.Mem)

/-- The comparator passed for `s.TopDisk`. -/
def cmpDisk : ProcessInfo → ProcessInfo → Bool :=
  metricCmp (fun p => p.DiskRate)

/-- The comparator passed for `s.TopNet`. -/
def cmpNet : ProcessInfo → ProcessInfo → Bool :=
  metricCmp (fun p => p.NetConns)

/-- `getTop` of `stats.go`: copy the input slice, stably sort the copy with
the strict comparator `less`, and truncate to `limit`.  `sort.SliceStable`
is modelled by the stable `List.mergeSort` run with `le a b := !(less b a)`. -/
def getTop (procs : List ProcessInfo) (less : ProcessInfo → ProcessInfo → Bool)
    (limit : Nat) : List ProcessInfo :=
  if procs.length = 0 then []
  else
    let sorted := procs.mergeSort (fun a b => !(less b a))
    if limit < sorted.length then sorted.take limit else sorted

/-- `getTop` with the caller's slice made explicit: the returned pair is
(result, the caller's slice after the call).  The source sorts a fresh copy
(`sorted := make(...); copy(sorted, procs)`), so the caller's slice is
returned untouched; sorting `procs` in place would instead return the
sorted list as the second component. -/
def getTopGo (procs : List ProcessInfo) (less : ProcessInfo → ProcessInfo → Bool)
    (limit : Nat) : List ProcessInfo × List ProcessInfo :=
  if procs.length = 0 then ([], procs)
  else
    let sorted := procs.mergeSort (fun a b => !(less b a))
    (if limit < sorted.length then sorted.take limit else sorted, procs)

/-- The cumulative disk-byte counter the loop derives for `pid` from the
`IOCounters` query: `ReadBytes + WriteBytes`, or 0 when the query failed. -/
def sampledDiskBytes (env : Env) (pid : Int) : Nat :=
  match (env.proc pid).ioBytes with
  | some c => c.1 + c.2
  | none => 0

/-- The disk rate recorded for a process whose cumulative counter now reads
`bytes`, given the previously cached sample (if any) and the elapsed
`duration` in seconds: `uint64(float64(diskIO-last.DiskIO) / duration)`
guarded by `diskIO >= last.DiskIO`, 0 otherwise or without a baseline. -/
def rateOf (duration : ℚ) (prev : Option ProcessInfo) (bytes : Nat) : Nat :=
  match prev with
  | some last =>
      if last.DiskBytes ≤ bytes then
        (⌊((bytes - last.DiskBytes : Nat) : ℚ) / duration⌋).toNat
      else 0
  | none => 0

/-- The `ProcessInfo` recorded for `pid` in one poll, given the elapsed
`duration` and the previously cached sample `prev` for this PID:
each failed per-PID query falls back to its zero value. -/
def mkInfo (env : Env) (duration : ℚ) (pid : Int) (prev : Option ProcessInfo) :
    ProcessInfo :=
  let pe := env.proc pid
  { PID := pid
    Name := pe.name.getD ""
    CPU := pe.cpuPercent.getD 0
    Mem := pe.memoryRSS.getD 0
    DiskBytes := sampledDiskBytes env pid
    DiskRate := rateOf duration prev (sampledDiskBytes env pid)
    NetConns := pe.connections.getD 0 }

/-- Accumulator of the per-PID loop of `GetStats`: the `procInfos` slice
being built and the two engine maps as mutated so far. -/
structure PollAcc where
  infos : List ProcessInfo
  procs : List (Int × ProcHandle)
  lastStats : List (Int × ProcessInfo)
deriving DecidableEq

/-- One iteration of the per-PID loop of `GetStats`: reuse the cached
handle or acquire one (`continue` on failure, leaving the accumulator
unchanged), query the per-PID metrics, difference the disk counter against
the cached previous sample, append the new `ProcessInfo` and store it in
the sample cache. -/
def pollStep (env : Env) (duration : ℚ) (acc : PollAcc) (pid : Int) : PollAcc :=
  let handled : Option (List (Int × ProcHandle)) :=
    match acc.procs.lookup pid with
    | some _ => some acc.procs
    | none =>
        match (env.proc pid).newProc with
        | some h => some (upsert pid h acc.procs)
        | none => none
  match handled with
  | none => acc
  | some procs' =>
      let info := mkInfo env duration pid (acc.lastStats.lookup pid)
      { infos := acc.infos ++ [info]
        procs := procs'
        lastStats := upsert pid info acc.lastStats }

/-- The elapsed duration used as the rate denominator:
`now.Sub(m.lastTime).Seconds()`, floored to 1 when non-positive. -/
def pollDuration (m : Monitor) (env : Env) : ℚ :=
  if env.now - m.lastTime ≤ 0 then 1 else env.now - m.lastTime

/-- The whole per-PID loop of `GetStats`, started from the engine's caches
and an empty `procInfos` slice. -/
def pollFold (m : Monitor) (env : Env) (pids : List Int) : PollAcc :=
  pids.foldl (pollStep env (pollDuration m env)) ⟨[], m.procs, m.lastStats⟩

/-- The `// System CPU` section of `GetStats`. -/
def applyCPU (env : Env) (s : SystemStats) : SystemStats :=
  match env.cpuPercent with
  | some (c0 :: _) => { s with CPUUsage := c0 }
  | some [] => s
  | none => s

/-- The `// Memory` section of `GetStats`. -/
def applyMemory (env : Env) (s : SystemStats) : SystemStats :=
  match env.virtualMemory with
  | some vm =>
      { s with MemoryTotal := vm.total, MemoryUsed := vm.used,
               MemoryFree := vm.free }
  | none => s

/-- Go's `strings.HasPrefix s pre`, as a character-list prefix test. -/
def stringHasPre (s pre : String) : Bool :=
  pre.data.isPrefixOf s.data

/-- The `DiskInfo` record appended for a partition whose usage query
succeeded. -/
def mkDiskInfo (p : PartitionStat) (u : UsageStat) : DiskInfo :=
  { Path := p.mountpoint, Total := u.total, Used := u.used, Free := u.free,
    UsedPercent := u.usedPercent }

/-- One iteration of the partition loop: `continue` on a `/dev/loop`
device, append a usage record when `disk.Usage` succeeds, skip otherwise. -/
def diskStep (env : Env) (acc : List DiskInfo) (p : PartitionStat) :
    List DiskInfo :=
  if stringHasPre p.device "/dev/loop" then acc
  else
    match env.usage p.mountpoint with
    | some u => acc ++ [mkDiskInfo p u]
    | none => acc

/-- The `// Disks` section of `GetStats`: skip `/dev/loop` devices, query
usage per remaining mountpoint, append a record per successful query. -/
def applyDisks (env : Env) (s : SystemStats) : SystemStats :=
  match env.partitions with
  | some parts => { s with Disks := parts.foldl (diskStep env) [] }
  | none => s

/-- The `// Host` section of `GetStats`. -/
def applyHost (env : Env) (s : SystemStats) : SystemStats :=
  match env.hostInfo with
  | some h =>
      { s with Uptime := h.uptime, Hostname := h.hostname, OS := h.os,
               Platform := h.platform }
  | none => s

/-- The `// Net (System wide)` section of `GetStats`. -/
def applyNet (env : Env) (s : SystemStats) : SystemStats :=
  match env.netCounters with
  | some (n0 :: _) => { s with NetSent := n0.bytesSent, NetRecv := n0.bytesRecv }
  | some [] => s
  | none => s

/-- The `// Processes` section of `GetStats`: on a successful PID
enumeration, run the per-PID loop, advance `lastTime`, run the cleanup
loop, and fill the four Top-N lists; on a failed enumeration the engine
state and the four lists are left untouched.

The Go cleanup ranges over the keys of the (post-loop) handle cache and,
for each key absent from `activePids`, deletes that key from both maps.
Hence a handle-cache entry survives iff its key is in `pids`, while a
sample-cache entry is deleted only when its key is a handle-cache key that
is not in `pids`: a sample-cache key with no cached handle is never
visited and survives. -/
def applyProcs (m : Monitor) (env : Env) (s : SystemStats) :
    SystemStats × Monitor :=
  match env.pids with
  | some pids =>
      let acc := pollFold m env pids
      let m' : Monitor :=
        { procs := acc.procs.filter (fun kv => decide (kv.1 ∈ pids))
          lastStats := acc.lastStats.filter (fun kv =>
            decide (kv.1 ∈ pids) || !((acc.procs.lookup kv.1).isSome))
          lastTime := env.now }
      ({ s with TopCPU := getTop acc.infos cmpCPU 5
                TopMem := getTop acc.infos cmpMem 5
                TopDisk := getTop acc.infos cmpDisk 5
                TopNet := getTop acc.infos cmpNet 5 }, m')
  | none => (s, m)

/-- `GetStats` of `stats.go`: the five system-wide sections followed by the
process section, returning the snapshot, the (always-`nil`) error, and the
mutated engine state. -/
def Monitor.GetStats (m : Monitor) (env : Env) :
    (SystemStats × Option String) × Monitor :=
  let s5 := applyNet env (applyHost env (applyDisks env
    (applyMemory env (applyCPU env {}))))
  let sm := applyProcs m env s5
  ((sm.1, none), sm.2)

/-! ### Order-theoretic facts about the ranking comparators -/

/-- The ordering a Top-N list realises for metric `f`: strictly greater
metric first, ties broken by PID ascending (non-strict, so the relation is
a total preorder even on duplicate PIDs). -/
def rankRel {M : Type} [LinearOrder M] (f : ProcessInfo → M)
    (a b : ProcessInfo) : Prop :=
  f b < f a ∨ (f a = f b ∧ a.PID ≤ b.PID)

theorem metricCmp_eq_false_iff {M : Type} [LinearOrder M]
    (f : ProcessInfo → M) (a b : ProcessInfo) :
    (metricCmp f b a = false) ↔ rankRel f a b := by
  unfold metricCmp rankRel
  split_ifs with h
  · simp only [decide_eq_false_iff_not, not_lt]
    constructor
    · intro hle
      exact Or.inl (lt_of_le_of_ne hle h)
    · rintro (hlt | ⟨heq, _⟩)
      · exact le_of_lt hlt
      · exact absurd heq.symm h
  · push_neg at h
    simp only [decide_eq_false_iff_not, not_lt]
    constructor
    · intro hle
      exact Or.inr ⟨h.symm, hle⟩
    · rintro (hlt | ⟨_, hle⟩)
      · exact absurd hlt (h ▸ lt_irrefl (f b))
      · exact hle

theorem rankRel_trans {M : Type} [LinearOrder M] (f : ProcessInfo → M)
    {a b c : ProcessInfo} (hab : rankRel f a b) (hbc : rankRel f b c) :
    rankRel f a c := by
  rcases hab with hab | ⟨eab, pab⟩ <;> rcases hbc with hbc | ⟨ebc, pbc⟩
  · exact Or.inl (hbc.trans hab)
  · exact Or.inl (ebc ▸ hab)
  · exact Or.inl (eab ▸ hbc)
  · exact Or.inr ⟨eab.trans ebc, pab.trans pbc⟩

theorem rankRel_total {M : Type} [LinearOrder M] (f : ProcessInfo → M)
    (a b : ProcessInfo) : rankRel f a b ∨ rankRel f b a := by
  rcases lt_trichotomy (f a) (f b) with h | h | h
  · exact Or.inr (Or.inl h)
  · rcases le_total a.PID b.PID with hp | hp
    · exact Or.inl (Or.inr ⟨h, hp⟩)
    · exact Or.inr (Or.inr ⟨h.symm, hp⟩)
  · exact Or.inl (Or.inl h)

theorem rankRel_antisymm {M : Type} [LinearOrder M] (f : ProcessInfo → M)
    {a b : ProcessInfo} (hab : rankRel f a b) (hba : rankRel f b a) :
    f a = f b ∧ a.PID = b.PID := by
  rcases hab with hab | ⟨eab, pab⟩ <;> rcases hba with hba | ⟨eba, pba⟩
  · exact absurd (hab.trans hba) (lt_irrefl _)
  · exact absurd (eba ▸ hab) (lt_irrefl _)
  · exact absurd (eab ▸ hba) (lt_irrefl _)
  · exact ⟨eab, le_antisymm pab pba⟩

/-- The Boolean order handed to the stable sort, `le a b := !(less b a)`,
agrees with `rankRel`. -/
theorem mergeLE_eq_true_iff {M : Type} [LinearOrder M]
    (f : ProcessInfo → M) (a b : ProcessInfo) :
    ((!(metricCmp f b a)) = true) ↔ rankRel f a b := by
  rw [Bool.not_eq_true']
  exact metricCmp_eq_false_iff f a b

theorem sorted_mergeSort_rankRel {M : Type} [LinearOrder M]
    (f : ProcessInfo → M) (l : List ProcessInfo) :
    (l.mergeSort (fun a b => !(metricCmp f b a))).Pairwise (rankRel f) := by
  have h := @List.sorted_mergeSort ProcessInfo (fun a b => !(metricCmp f b a))
    (fun a b c hab hbc =>
      (mergeLE_eq_true_iff f a c).mpr
        (rankRel_trans f ((mergeLE_eq_true_iff f a b).mp hab)
          ((mergeLE_eq_true_iff f b c).mp hbc)))
    (fun a b => by
      rcases rankRel_total f a b with h | h
      · simp [(mergeLE_eq_true_iff f a b).mpr h]
      · simp [(mergeLE_eq_true_iff f b a).mpr h])
    l
  exact h.imp (fun hab => (mergeLE_eq_true_iff f _ _).mp hab)

/-- Every Top-N list built with `metricCmp f` is ordered by `rankRel f`. -/
theorem getTop_pairwise {M : Type} [LinearOrder M] (f : ProcessInfo → M)
    (procs : List ProcessInfo) (limit : Nat) :
    (getTop procs (metricCmp f) limit).Pairwise (rankRel f) := by
  unfold getTop
  by_cases h0 : procs.length = 0
  · simp [h0]
  · rw [if_neg h0]
    dsimp only
    have h := sorted_mergeSort_rankRel f procs
    split
    · exact h.take
    · exact h

/-- The length contract of `getTop`. -/
theorem getTop_length (procs : List ProcessInfo)
    (less : ProcessInfo → ProcessInfo → Bool) (limit : Nat) :
    (getTop procs less limit).length = min procs.length limit := by
  unfold getTop
  by_cases h0 : procs.length = 0
  · simp [h0]
  · rw [if_neg h0]
    dsimp only
    split
    · rw [List.length_take, List.length_mergeSort]
      omega
    · rename_i h1
      rw [List.length_mergeSort] at h1 ⊢
      omega

/-- Two sorted permutations of each other are equal, provided the order is
antisymmetric on the elements involved. -/
theorem perm_pairwise_eq {α : Type} {R : α → α → Prop} :
    ∀ {l₁ l₂ : List α}, l₁.Perm l₂ → l₁.Pairwise R → l₂.Pairwise R →
      (∀ a, a ∈ l₁ → ∀ b, b ∈ l₁ → R a b → R b a → a = b) → l₁ = l₂ := by
  intro l₁
  induction l₁ with
  | nil =>
      intro l₂ hp _ _ _
      exact hp.nil_eq
  | cons a t ih =>
      intro l₂ hp h₁ h₂ hanti
      cases l₂ with
      | nil =>
          have := hp.length_eq
          simp at this
      | cons b t₂ =>
          have hab : a = b := by
            by_cases heq : a = b
            · exact heq
            · have hbmem : b ∈ a :: t := hp.mem_iff.mpr (by simp)
              have hamem : a ∈ b :: t₂ := hp.mem_iff.mp (by simp)
              have hbt : b ∈ t := by
                rcases List.mem_cons.mp hbmem with h | h
                · exact absurd h.symm heq
                · exact h
              have hat : a ∈ t₂ := by
                rcases List.mem_cons.mp hamem with h | h
                · exact absurd h heq
                · exact h
              have hRab : R a b := (List.pairwise_cons.mp h₁).1 b hbt
              have hRba : R b a := (List.pairwise_cons.mp h₂).1 a hat
              exact hanti a (by simp) b hbmem hRab hRba
          subst hab
          have hp' : t.Perm t₂ := hp.cons_inv
          have ht := ih hp' (List.pairwise_cons.mp h₁).2
            (List.pairwise_cons.mp h₂).2
            (fun x hx y hy =>
              hanti x (List.mem_cons_of_mem _ hx) y (List.mem_cons_of_mem _ hy))
          rw [ht]

/-- On sample lists with pairwise-distinct PIDs, the stably sorted list is
a function of the multiset of samples only. -/
theorem mergeSort_perm_eq {M : Type} [LinearOrder M] (f : ProcessInfo → M)
    {l₁ l₂ : List ProcessInfo} (hperm : l₁.Perm l₂)
    (hpid : l₁.Pairwise (fun a b => a.PID ≠ b.PID)) :
    l₁.mergeSort (fun a b => !(metricCmp f b a)) =
      l₂.mergeSort (fun a b => !(metricCmp f b a)) := by
  apply @perm_pairwise_eq ProcessInfo (rankRel f)
  · exact (List.mergeSort_perm l₁ _).trans
      (hperm.trans (List.mergeSort_perm l₂ _).symm)
  · exact sorted_mergeSort_rankRel f l₁
  · exact sorted_mergeSort_rankRel f l₂
  · intro a ha b hb hab hba
    have ha' : a ∈ l₁ := (List.mergeSort_perm l₁ _).mem_iff.mp ha
    have hb' : b ∈ l₁ := (List.mergeSort_perm l₁ _).mem_iff.mp hb
    rcases rankRel_antisymm f hab hba with ⟨_, hpideq⟩
    by_contra hne
    have hsym : Symmetric (fun x y : ProcessInfo => x.PID ≠ y.PID) :=
      fun x y h => Ne.symm h
    exact hpid.forall hsym ha' hb' hne hpideq

/-- `getTop` with a `metricCmp` comparator is permutation-invariant on
distinct-PID inputs. -/
theorem getTop_perm_eq {M : Type} [LinearOrder M] (f : ProcessInfo → M)
    {l₁ l₂ : List ProcessInfo} (hperm : l₁.Perm l₂)
    (hpid : l₁.Pairwise (fun a b => a.PID ≠ b.PID)) (limit : Nat) :
    getTop l₁ (metricCmp f) limit = getTop l₂ (metricCmp f) limit := by
  unfold getTop
  rw [hperm.length_eq, mergeSort_perm_eq f hperm hpid]

/-! ### Association-list (Go map) lemmas -/

theorem lookup_cons_ne {α : Type} {k p : Int} (h : p ≠ k) (v : α)
    (rest : List (Int × α)) :
    List.lookup p ((k, v) :: rest) = List.lookup p rest := by
  have hb : (p == k) = false := beq_eq_false_iff_ne.mpr h
  simp [List.lookup, hb]

theorem lookup_upsert_self {α : Type} (k : Int) (v : α) :
    ∀ l : List (Int × α), (upsert k v l).lookup k = some v := by
  intro l
  induction l with
  | nil => simp [upsert]
  | cons kv rest ih =>
      obtain ⟨k', v'⟩ := kv
      unfold upsert
      by_cases h : k' = k
      · simp [h]
      · rw [if_neg h, lookup_cons_ne (fun he => h he.symm), ih]

theorem lookup_upsert_ne {α : Type} {k p : Int} (h : p ≠ k) (v : α) :
    ∀ l : List (Int × α), (upsert k v l).lookup p = l.lookup p := by
  intro l
  induction l with
  | nil => simp [upsert, lookup_cons_ne h]
  | cons kv rest ih =>
      obtain ⟨k', v'⟩ := kv
      unfold upsert
      by_cases h' : k' = k
      · subst h'
        rw [if_pos rfl, lookup_cons_ne h, lookup_cons_ne h]
      · rw [if_neg h']
        by_cases h'' : p = k'
        · subst h''
          simp [List.lookup]
        · rw [lookup_cons_ne h'', lookup_cons_ne h'', ih]

theorem lookup_eq_none_of_forall {α : Type} {k : Int} :
    ∀ {l : List (Int × α)}, (∀ kv ∈ l, kv.1 ≠ k) → l.lookup k = none := by
  intro l
  induction l with
  | nil => simp
  | cons kv rest ih =>
      intro h
      obtain ⟨k', v'⟩ := kv
      have h1 : k ≠ k' := fun he => h (k', v') (by simp) he.symm
      rw [lookup_cons_ne h1]
      exact ih (fun kv hkv => h kv (by simp [hkv]))

theorem lookup_filter_eq {α : Type} {p : Int × α → Bool} {k : Int}
    (hp : ∀ kv : Int × α, kv.1 = k → p kv = true) :
    ∀ l : List (Int × α), (l.filter p).lookup k = l.lookup k := by
  intro l
  induction l with
  | nil => simp
  | cons kv rest ih =>
      obtain ⟨k', v'⟩ := kv
      by_cases hk : k' = k
      · subst hk
        rw [List.filter_cons_of_pos (hp (k', v') rfl)]
        simp [List.lookup, ih]
      · have hk' : k ≠ k' := fun he => hk he.symm
        cases hpv : p (k', v')
        · rw [List.filter_cons_of_neg (by simp [hpv]), lookup_cons_ne hk', ih]
        · rw [List.filter_cons_of_pos hpv, lookup_cons_ne hk',
            lookup_cons_ne hk', ih]

/-! ### Per-PID loop lemmas -/

/-- An iteration for `pid` does not touch the sample-cache binding of any
other PID. -/
theorem pollStep_lastStats_ne {env : Env} {d : ℚ} {acc : PollAcc}
    {pid p : Int} (h : p ≠ pid) :
    (pollStep env d acc pid).lastStats.lookup p = acc.lastStats.lookup p := by
  unfold pollStep
  cases acc.procs.lookup pid with
  | some _ => exact lookup_upsert_ne h _ _
  | none =>
      cases (env.proc pid).newProc with
      | some _ => exact lookup_upsert_ne h _ _
      | none => rfl

/-- An iteration for `pid` does not touch the handle-cache binding of any
other PID. -/
theorem pollStep_procs_ne {env : Env} {d : ℚ} {acc : PollAcc}
    {pid p : Int} (h : p ≠ pid) :
    (pollStep env d acc pid).procs.lookup p = acc.procs.lookup p := by
  unfold pollStep
  cases hl : acc.procs.lookup pid with
  | some _ => rfl
  | none =>
      cases (env.proc pid).newProc with
      | some _ => exact lookup_upsert_ne h _ _
      | none => rfl

/-- A PID whose handle is cached, or whose handle acquisition succeeds, is
processed: its freshly built `ProcessInfo` replaces its sample-cache entry,
differenced against the cached previous sample. -/
theorem pollStep_self_processed {env : Env} {d : ℚ} {acc : PollAcc}
    {pid : Int}
    (h : (acc.procs.lookup pid).isSome ∨ ((env.proc pid).newProc).isSome) :
    (pollStep env d acc pid).lastStats.lookup pid =
      some (mkInfo env d pid (acc.lastStats.lookup pid)) := by
  unfold pollStep
  cases hl : acc.procs.lookup pid with
  | some _ => exact lookup_upsert_self _ _ _
  | none =>
      cases hn : (env.proc pid).newProc with
      | some _ => exact lookup_upsert_self _ _ _
      | none =>
          rw [hl, hn] at h
          simp at h

/-- Folding the loop over PIDs other than `p` leaves `p`'s sample-cache
binding alone. -/
theorem foldl_lastStats_ne {env : Env} {d : ℚ} {p : Int} :
    ∀ (l : List Int) (acc : PollAcc), p ∉ l →
      (l.foldl (pollStep env d) acc).lastStats.lookup p =
        acc.lastStats.lookup p := by
  intro l
  induction l with
  | nil => intro acc _; rfl
  | cons a t ih =>
      intro acc h
      rw [List.foldl_cons, ih _ (fun ht => h (List.mem_cons_of_mem _ ht)),
        pollStep_lastStats_ne
          (fun he => h (by rw [he]; exact List.mem_cons_self a t))]

/-- Folding the loop over PIDs other than `p` leaves `p`'s handle-cache
binding alone. -/
theorem foldl_procs_ne {env : Env} {d : ℚ} {p : Int} :
    ∀ (l : List Int) (acc : PollAcc), p ∉ l →
      (l.foldl (pollStep env d) acc).procs.lookup p = acc.procs.lookup p := by
  intro l
  induction l with
  | nil => intro acc _; rfl
  | cons a t ih =>
      intro acc h
      rw [List.foldl_cons, ih _ (fun ht => h (List.mem_cons_of_mem _ ht)),
        pollStep_procs_ne
          (fun he => h (by rw [he]; exact List.mem_cons_self a t))]

/-- After the whole loop, a processed PID's sample-cache entry is the
`ProcessInfo` built from this poll's queries, differenced against the
sample cached before the loop started. -/
theorem foldl_lookup_processed {env : Env} {d : ℚ} :
    ∀ (l : List Int) (acc : PollAcc) {pid : Int}, l.Nodup → pid ∈ l →
      ((acc.procs.lookup pid).isSome ∨ ((env.proc pid).newProc).isSome) →
      (l.foldl (pollStep env d) acc).lastStats.lookup pid =
        some (mkInfo env d pid (acc.lastStats.lookup pid)) := by
  intro l
  induction l with
  | nil => intro acc pid _ h; simp at h
  | cons a t ih =>
      intro acc pid hnd hmem hh
      rcases List.mem_cons.mp hmem with rfl | hmem'
      · rw [List.foldl_cons,
          foldl_lastStats_ne t _ (List.nodup_cons.mp hnd).1]
        exact pollStep_self_processed hh
      · have hne : pid ≠ a := by
          rintro rfl
          exact (List.nodup_cons.mp hnd).1 hmem'
        rw [List.foldl_cons,
          ih _ (List.nodup_cons.mp hnd).2 hmem'
            (by rcases hh with hh | hh
                · exact Or.inl (by rwa [pollStep_procs_ne hne])
                · exact Or.inr hh),
          pollStep_lastStats_ne hne]

/-- Every entry of `upsert k v l` is either the new binding or an entry of
`l`. -/
theorem upsert_subset {α : Type} (k : Int) (v : α) :
    ∀ (l : List (Int × α)) (kv : Int × α),
      kv ∈ upsert k v l → kv = (k, v) ∨ kv ∈ l := by
  intro l
  induction l with
  | nil =>
      intro kv hkv
      simp [upsert] at hkv
      exact Or.inl hkv
  | cons kv' rest ih =>
      intro kv hkv
      obtain ⟨k', v'⟩ := kv'
      unfold upsert at hkv
      by_cases h : k' = k
      · rw [if_pos h] at hkv
        rcases List.mem_cons.mp hkv with h1 | h1
        · exact Or.inl h1
        · exact Or.inr (List.mem_cons_of_mem _ h1)
      · rw [if_neg h] at hkv
        rcases List.mem_cons.mp hkv with h1 | h1
        · exact Or.inr (by simp [h1])
        · rcases ih kv h1 with h2 | h2
          · exact Or.inl h2
          · exact Or.inr (List.mem_cons_of_mem _ h2)

/-- One loop iteration either skips the PID (acquisition failed, nothing
changes) or processes it: the sample cache gains exactly the fresh
`ProcessInfo` and the processed PID has a cached handle afterwards. -/
theorem pollStep_shape (env : Env) (d : ℚ) (acc : PollAcc) (pid : Int) :
    pollStep env d acc pid = acc ∨
    ((pollStep env d acc pid).lastStats =
        upsert pid (mkInfo env d pid (acc.lastStats.lookup pid))
          acc.lastStats ∧
      ((pollStep env d acc pid).procs.lookup pid).isSome = true) := by
  unfold pollStep
  cases hl : acc.procs.lookup pid with
  | some hh =>
      right
      exact ⟨rfl, by rw [hl]; rfl⟩
  | none =>
      cases hn : (env.proc pid).newProc with
      | none => left; rfl
      | some h =>
          right
          refine ⟨rfl, ?_⟩
          rw [lookup_upsert_self]
          rfl

/-- One loop iteration preserves the engine invariant that every
sample-cache key has a cached handle. -/
theorem pollStep_covered (env : Env) (d : ℚ) (acc : PollAcc) (pid : Int)
    (hcov : ∀ kv ∈ acc.lastStats, (acc.procs.lookup kv.1).isSome = true) :
    ∀ kv ∈ (pollStep env d acc pid).lastStats,
      ((pollStep env d acc pid).procs.lookup kv.1).isSome = true := by
  rcases pollStep_shape env d acc pid with heq | ⟨hls, hps⟩
  · rw [heq]
    exact hcov
  · intro kv hkv
    rw [hls] at hkv
    rcases upsert_subset _ _ _ _ hkv with heq2 | hmem
    · rw [heq2]
      exact hps
    · by_cases hkp : kv.1 = pid
      · rw [hkp]
        exact hps
      · rw [pollStep_procs_ne hkp]
        exact hcov kv hmem

/-- The whole loop preserves the engine invariant that every sample-cache
key has a cached handle. -/
theorem foldl_covered (env : Env) (d : ℚ) :
    ∀ (l : List Int) (acc : PollAcc),
      (∀ kv ∈ acc.lastStats, (acc.procs.lookup kv.1).isSome = true) →
      ∀ kv ∈ (l.foldl (pollStep env d) acc).lastStats,
        ((l.foldl (pollStep env d) acc).procs.lookup kv.1).isSome = true := by
  intro l
  induction l with
  | nil => intro acc hcov; exact hcov
  | cons a t ih =>
      intro acc hcov
      rw [List.foldl_cons]
      exact ih _ (pollStep_covered env d acc a hcov)

/-! ### Frame lemmas: each section of `GetStats` only writes its own
snapshot fields, and a failed query leaves the snapshot untouched. -/

theorem applyCPU_frame (env : Env) (s : SystemStats) :
    ∃ c, applyCPU env s = { s with CPUUsage := c } := by
  unfold applyCPU
  match env.cpuPercent with
  | none => exact ⟨s.CPUUsage, rfl⟩
  | some [] => exact ⟨s.CPUUsage, rfl⟩
  | some (c0 :: t) => exact ⟨c0, rfl⟩

theorem applyMemory_frame (env : Env) (s : SystemStats) :
    ∃ a b c, applyMemory env s =
      { s with MemoryTotal := a, MemoryUsed := b, MemoryFree := c } := by
  unfold applyMemory
  match env.virtualMemory with
  | none => exact ⟨s.MemoryTotal, s.MemoryUsed, s.MemoryFree, rfl⟩
  | some vm => exact ⟨vm.total, vm.used, vm.free, rfl⟩

theorem applyDisks_frame (env : Env) (s : SystemStats) :
    ∃ d, applyDisks env s = { s with Disks := d } := by
  unfold applyDisks
  match env.partitions with
  | none => exact ⟨s.Disks, rfl⟩
  | some parts => exact ⟨_, rfl⟩

theorem applyHost_frame (env : Env) (s : SystemStats) :
    ∃ a b c d, applyHost env s =
      { s with Uptime := a, Hostname := b, OS := c, Platform := d } := by
  unfold applyHost
  match env.hostInfo with
  | none => exact ⟨s.Uptime, s.Hostname, s.OS, s.Platform, rfl⟩
  | some h => exact ⟨h.uptime, h.hostname, h.os, h.platform, rfl⟩

theorem applyNet_frame (env : Env) (s : SystemStats) :
    ∃ a b, applyNet env s = { s with NetSent := a, NetRecv := b } := by
  unfold applyNet
  match env.netCounters with
  | none => exact ⟨s.NetSent, s.NetRecv, rfl⟩
  | some [] => exact ⟨s.NetSent, s.NetRecv, rfl⟩
  | some (n0 :: t) => exact ⟨n0.bytesSent, n0.bytesRecv, rfl⟩

theorem applyProcs_frame (m : Monitor) (env : Env) (s : SystemStats) :
    ∃ t1 t2 t3 t4 m', applyProcs m env s =
      ({ s with TopCPU := t1, TopMem := t2, TopDisk := t3, TopNet := t4 },
        m') := by
  unfold applyProcs
  match env.pids with
  | none => exact ⟨s.TopCPU, s.TopMem, s.TopDisk, s.TopNet, m, rfl⟩
  | some pids => exact ⟨_, _, _, _, _, rfl⟩

theorem applyCPU_none {env : Env} (s : SystemStats)
    (h : env.cpuPercent = none) : applyCPU env s = s := by
  unfold applyCPU
  rw [h]

theorem applyMemory_none {env : Env} (s : SystemStats)
    (h : env.virtualMemory = none) : applyMemory env s = s := by
  unfold applyMemory
  rw [h]

theorem applyDisks_none {env : Env} (s : SystemStats)
    (h : env.partitions = none) : applyDisks env s = s := by
  unfold applyDisks
  rw [h]

theorem applyHost_none {env : Env} (s : SystemStats)
    (h : env.hostInfo = none) : applyHost env s = s := by
  unfold applyHost
  rw [h]

theorem applyNet_none {env : Env} (s : SystemStats)
    (h : env.netCounters = none) : applyNet env s = s := by
  unfold applyNet
  rw [h]

theorem applyProcs_none {m : Monitor} {env : Env} (s : SystemStats)
    (h : env.pids = none) : applyProcs m env s = (s, m) := by
  unfold applyProcs
  rw [h]

theorem applyDisks_some {env : Env} (s : SystemStats) {parts : List PartitionStat}
    (h : env.partitions = some parts) :
    applyDisks env s = { s with Disks := parts.foldl (diskStep env) [] } := by
  unfold applyDisks
  rw [h]

theorem applyProcs_some (m : Monitor) (env : Env) (s : SystemStats)
    {pids : List Int} (h : env.pids = some pids) :
    applyProcs m env s =
      ({ s with TopCPU := getTop (pollFold m env pids).infos cmpCPU 5
                TopMem := getTop (pollFold m env pids).infos cmpMem 5
                TopDisk := getTop (pollFold m env pids).infos cmpDisk 5
                TopNet := getTop (pollFold m env pids).infos cmpNet 5 },
       { procs := (pollFold m env pids).procs.filter
            (fun kv => decide (kv.1 ∈ pids))
         lastStats := (pollFold m env pids).lastStats.filter (fun kv =>
            decide (kv.1 ∈ pids) ||
              !(((pollFold m env pids).procs.lookup kv.1).isSome))
         lastTime := env.now }) := by
  unfold applyProcs
  rw [h]

/-- On a successful PID enumeration the returned engine state is the poll's
accumulator purged of PIDs missing from the enumeration, with `lastTime`
advanced to the poll's clock reading. -/
theorem GetStats_monitor_some (m : Monitor) (env : Env) {pids : List Int}
    (h : env.pids = some pids) :
    (m.GetStats env).2 =
      { procs := (pollFold m env pids).procs.filter
          (fun kv => decide (kv.1 ∈ pids)),
        lastStats := (pollFold m env pids).lastStats.filter (fun kv =>
          decide (kv.1 ∈ pids) ||
            !(((pollFold m env pids).procs.lookup kv.1).isSome)),
        lastTime := env.now } := by
  unfold Monitor.GetStats applyProcs
  rw [h]

/-- On a failed PID enumeration the engine state is returned unchanged. -/
theorem GetStats_monitor_none (m : Monitor) (env : Env)
    (h : env.pids = none) : (m.GetStats env).2 = m := by
  unfold Monitor.GetStats applyProcs
  rw [h]

/-- The four Top-N lists of the snapshot, on a successful enumeration. -/
theorem GetStats_tops (m : Monitor) (env : Env) {pids : List Int}
    (h : env.pids = some pids) :
    (m.GetStats env).1.1.TopCPU = getTop (pollFold m env pids).infos cmpCPU 5 ∧
    (m.GetStats env).1.1.TopMem = getTop (pollFold m env pids).infos cmpMem 5 ∧
    (m.GetStats env).1.1.TopDisk = getTop (pollFold m env pids).infos cmpDisk 5 ∧
    (m.GetStats env).1.1.TopNet = getTop (pollFold m env pids).infos cmpNet 5 := by
  simp only [Monitor.GetStats]
  rw [applyProcs_some m env _ h]
  exact ⟨rfl, rfl, rfl, rfl⟩

/-- The partition loop appends exactly one usage record per non-loop
partition whose usage query succeeded, in enumeration order. -/
theorem diskFold_eq (env : Env) :
    ∀ (parts : List PartitionStat) (acc : List DiskInfo),
      parts.foldl (diskStep env) acc =
        acc ++ (parts.filter
            (fun p => !(stringHasPre p.device "/dev/loop"))).filterMap
          (fun p => (env.usage p.mountpoint).map (mkDiskInfo p)) := by
  have hloop : ∀ (acc : List DiskInfo) (p : PartitionStat),
      stringHasPre p.device "/dev/loop" = true → diskStep env acc p = acc := by
    intro acc p h
    unfold diskStep
    rw [if_pos h]
  have hnone : ∀ (acc : List DiskInfo) (p : PartitionStat),
      ¬stringHasPre p.device "/dev/loop" = true →
      env.usage p.mountpoint = none → diskStep env acc p = acc := by
    intro acc p h hu
    unfold diskStep
    rw [if_neg h, hu]
  have hsome : ∀ (acc : List DiskInfo) (p : PartitionStat) (u : UsageStat),
      ¬stringHasPre p.device "/dev/loop" = true →
      env.usage p.mountpoint = some u →
      diskStep env acc p = acc ++ [mkDiskInfo p u] := by
    intro acc p u h hu
    unfold diskStep
    rw [if_neg h, hu]
  intro parts
  induction parts with
  | nil => simp
  | cons p t ih =>
      intro acc
      rw [List.foldl_cons]
      by_cases hd : stringHasPre p.device "/dev/loop" = true
      · rw [hloop acc p hd, ih, List.filter_cons_of_neg (by simp [hd])]
      · rw [List.filter_cons_of_pos (by simp [hd])]
        cases hu : env.usage p.mountpoint with
        | none =>
            rw [hnone acc p hd hu, ih, List.filterMap_cons, hu]
            simp
        | some u =>
            rw [hsome acc p u hd hu, ih, List.filterMap_cons, hu]
            simp

/-- Projection form of `GetStats_monitor_some`: the handle cache. -/
theorem GetStats_procs_some (m : Monitor) (env : Env) {pids : List Int}
    (h : env.pids = some pids) :
    (m.GetStats env).2.procs =
      (pollFold m env pids).procs.filter (fun kv => decide (kv.1 ∈ pids)) := by
  rw [GetStats_monitor_some m env h]

/-- Projection form of `GetStats_monitor_some`: the sample cache. -/
theorem GetStats_lastStats_some (m : Monitor) (env : Env) {pids : List Int}
    (h : env.pids = some pids) :
    (m.GetStats env).2.lastStats =
      (pollFold m env pids).lastStats.filter (fun kv =>
        decide (kv.1 ∈ pids) ||
          !(((pollFold m env pids).procs.lookup kv.1).isSome)) := by
  rw [GetStats_monitor_some m env h]

/-- Projection form of `GetStats_monitor_some`: the poll timestamp. -/
theorem GetStats_lastTime_some (m : Monitor) (env : Env) {pids : List Int}
    (h : env.pids = some pids) :
    (m.GetStats env).2.lastTime = env.now := by
  rw [GetStats_monitor_some m env h]

/-- The engine invariant "every sample-cache key has a cached handle"
holds for a freshly created engine (both caches empty). -/
theorem NewMonitor_covers (now : ℚ) :
    ∀ kv ∈ (NewMonitor now).lastStats,
      (((NewMonitor now).procs).lookup kv.1).isSome = true := by
  intro kv hkv
  simp [NewMonitor] at hkv

/-- Every poll preserves the engine invariant "every sample-cache key has
a cached handle": with `NewMonitor_covers` this makes the invariant hold
for every engine state the program can reach. -/
theorem GetStats_covers (m : Monitor) (env : Env)
    (hcov : ∀ kv ∈ m.lastStats, (m.procs.lookup kv.1).isSome = true) :
    ∀ kv ∈ (m.GetStats env).2.lastStats,
      (((m.GetStats env).2.procs).lookup kv.1).isSome = true := by
  cases hp : env.pids with
  | none =>
      rw [GetStats_monitor_none m env hp]
      exact hcov
  | some pids =>
      rw [GetStats_lastStats_some m env hp, GetStats_procs_some m env hp]
      intro kv hkv
      obtain ⟨hmem, hQ⟩ := List.mem_filter.mp hkv
      have hsome : (((pollFold m env pids).procs).lookup kv.1).isSome = true :=
        foldl_covered env (pollDuration m env) pids
          ⟨[], m.procs, m.lastStats⟩ hcov kv hmem
      have hkmem : kv.1 ∈ pids := by
        rw [hsome] at hQ
        simpa using hQ
      rw [lookup_filter_eq (fun kv' hk' => by simp [hk', hkmem]) _]
      exact hsome

/-- The sample recorded for a processed PID in one poll is `mkInfo` of this
poll's queries, differenced against the pre-poll cached sample. -/
theorem recorded_info_eq (m : Monitor) (env : Env) (pids : List Int)
    (pid : Int) (info : ProcessInfo)
    (hpids : env.pids = some pids) (hnodup : pids.Nodup) (hmem : pid ∈ pids)
    (hhandle : (m.procs.lookup pid).isSome ∨ ((env.proc pid).newProc).isSome)
    (hlook : (m.GetStats env).2.lastStats.lookup pid = some info) :
    info = mkInfo env (pollDuration m env) pid (m.lastStats.lookup pid) := by
  rw [GetStats_lastStats_some m env hpids,
    lookup_filter_eq (fun kv hkv => by simp [hkv, hmem]) _] at hlook
  unfold pollFold at hlook
  rw [foldl_lookup_processed pids ⟨[], m.procs, m.lastStats⟩
    hnodup hmem hhandle] at hlook
  exact (Option.some.inj hlook).symm

/-- The snapshot's disk list, when the partition enumeration succeeded. -/
theorem GetStats_disks_some (m : Monitor) (env : Env)
    {parts : List PartitionStat} (h : env.partitions = some parts) :
    (m.GetStats env).1.1.Disks =
      (parts.filter (fun p => !(stringHasPre p.device "/dev/loop"))).filterMap
        (fun p => (env.usage p.mountpoint).map (mkDiskInfo p)) := by
  simp only [Monitor.GetStats]
  obtain ⟨t1, t2, t3, t4, m', hP⟩ := applyProcs_frame m env
    (applyNet env (applyHost env (applyDisks env
      (applyMemory env (applyCPU env {})))))
  rw [hP]
  obtain ⟨a, b, hN⟩ := applyNet_frame env
    (applyHost env (applyDisks env (applyMemory env (applyCPU env {}))))
  rw [hN]
  obtain ⟨u1, u2, u3, u4, hH⟩ := applyHost_frame env
    (applyDisks env (applyMemory env (applyCPU env {})))
  rw [hH]
  rw [applyDisks_some (applyMemory env (applyCPU env {})) h]
  simpa using diskFold_eq env parts []

/-- On a failed PID enumeration the four Top-N lists stay at their zero
value (the empty list). -/
theorem GetStats_tops_none (m : Monitor) (env : Env) (h : env.pids = none) :
    (m.GetStats env).1.1.TopCPU = [] ∧ (m.GetStats env).1.1.TopMem = [] ∧
    (m.GetStats env).1.1.TopDisk = [] ∧ (m.GetStats env).1.1.TopNet = [] := by
  simp only [Monitor.GetStats]
  rw [applyProcs_none _ h]
  obtain ⟨a, b, hN⟩ := applyNet_frame env
    (applyHost env (applyDisks env (applyMemory env (applyCPU env {}))))
  rw [hN]
  obtain ⟨u1, u2, u3, u4, hH⟩ := applyHost_frame env
    (applyDisks env (applyMemory env (applyCPU env {})))
  rw [hH]
  obtain ⟨d, hD⟩ := applyDisks_frame env (applyMemory env (applyCPU env {}))
  rw [hD]
  obtain ⟨x, y, z, hM⟩ := applyMemory_frame env (applyCPU env {})
  rw [hM]
  obtain ⟨c, hC⟩ := applyCPU_frame env {}
  rw [hC]
  exact ⟨rfl, rfl, rfl, rfl⟩

/-! ### Claim theorems -/

/-- Claim C3: for every input collection of process samples, each of the four
Top-N lists (CPU, memory, disk-rate, connections) has length
`min (number of samples) 5` — never more than 5, all samples when fewer
than 5 exist, and the empty list (not an error) for empty input. -/
theorem topn_length_min (procs : List ProcessInfo) :
    (getTop procs cmpCPU 5).length = min procs.length 5 ∧
    (getTop procs cmpMem 5).length = min procs.length 5 ∧
    (getTop procs cmpDisk 5).length = min procs.length 5 ∧
    (getTop procs cmpNet 5).length = min procs.length 5 ∧
    (∀ less, getTop [] less 5 = []) :=
  ⟨getTop_length procs cmpCPU 5, getTop_length procs cmpMem 5,
   getTop_length procs cmpDisk 5, getTop_length procs cmpNet 5,
   fun _ => rfl⟩

/-- Claim C4: in every snapshot, each of the four Top-N lists is sorted by its
metric descending, and entries with equal metric values appear in
(non-strictly) ascending PID order. -/
theorem topn_sorted_desc (m : Monitor) (env : Env) :
    (m.GetStats env).1.1.TopCPU.Pairwise
      (fun a b => b.CPU < a.CPU ∨ (a.CPU = b.CPU ∧ a.PID ≤ b.PID)) ∧
    (m.GetStats env).1.1.TopMem.Pairwise
      (fun a b => b.Mem < a.Mem ∨ (a.Mem = b.Mem ∧ a.PID ≤ b.PID)) ∧
    (m.GetStats env).1.1.TopDisk.Pairwise
      (fun a b => b.DiskRate < a.DiskRate ∨
        (a.DiskRate = b.DiskRate ∧ a.PID ≤ b.PID)) ∧
    (m.GetStats env).1.1.TopNet.Pairwise
      (fun a b => b.NetConns < a.NetConns ∨
        (a.NetConns = b.NetConns ∧ a.PID ≤ b.PID)) := by
  cases h : env.pids with
  | none =>
      obtain ⟨h1, h2, h3, h4⟩ := GetStats_tops_none m env h
      rw [h1, h2, h3, h4]
      exact ⟨List.Pairwise.nil, List.Pairwise.nil,
        List.Pairwise.nil, List.Pairwise.nil⟩
  | some pids =>
      obtain ⟨h1, h2, h3, h4⟩ := GetStats_tops m env h
      rw [h1, h2, h3, h4]
      exact ⟨getTop_pairwise (fun p => p.CPU) _ 5,
        getTop_pairwise (fun p => p.Mem) _ 5,
        getTop_pairwise (fun p => p.DiskRate) _ 5,
        getTop_pairwise (fun p => p.NetConns) _ 5⟩

/-- Claim C5: on sample collections with pairwise-distinct PIDs, each ranking is
a function of the sample set only: any permutation of the input yields the
identical output sequence (two runs on equal inputs agree because `getTop`
is a function). -/
theorem ranking_deterministic (l₁ l₂ : List ProcessInfo)
    (hperm : l₁.Perm l₂)
    (hpid : l₁.Pairwise (fun a b => a.PID ≠ b.PID)) :
    getTop l₁ cmpCPU 5 = getTop l₂ cmpCPU 5 ∧
    getTop l₁ cmpMem 5 = getTop l₂ cmpMem 5 ∧
    getTop l₁ cmpDisk 5 = getTop l₂ cmpDisk 5 ∧
    getTop l₁ cmpNet 5 = getTop l₂ cmpNet 5 :=
  ⟨getTop_perm_eq (fun p => p.CPU) hperm hpid 5,
   getTop_perm_eq (fun p => p.Mem) hperm hpid 5,
   getTop_perm_eq (fun p => p.DiskRate) hperm hpid 5,
   getTop_perm_eq (fun p => p.NetConns) hperm hpid 5⟩

/-- Concrete samples for witnesses: distinct PIDs, with a CPU tie between
PIDs 1 and 2. -/
def w1 : ProcessInfo := ⟨1, "a", 5, 10, 100, 7, 2⟩

def w2 : ProcessInfo := ⟨2, "b", 5, 30, 50, 7, 1⟩

def w3 : ProcessInfo := ⟨3, "c", 9, 20, 60, 1, 3⟩

/-- Witness for C5 at a concrete permutation pair. -/
theorem ranking_deterministic_witness :
    ([w1, w2, w3].Perm [w3, w1, w2]) ∧
    ([w1, w2, w3].Pairwise (fun a b => a.PID ≠ b.PID)) ∧
    getTop [w1, w2, w3] cmpCPU 5 = getTop [w3, w1, w2] cmpCPU 5 :=
  ⟨by decide, by decide,
   (ranking_deterministic [w1, w2, w3] [w3, w1, w2]
     (by decide) (by decide)).1⟩

/-- Claim C6: the elapsed duration used as the rate denominator in every
disk-rate computation of a poll is strictly positive; a non-positive
measured duration is replaced by 1 second. -/
theorem duration_pos (m : Monitor) (env : Env) :
    0 < pollDuration m env ∧
    (env.now - m.lastTime ≤ 0 → pollDuration m env = 1) := by
  unfold pollDuration
  constructor
  · split
    · exact one_pos
    · rename_i h
      exact not_le.mp h
  · intro h
    rw [if_pos h]

/-- Engine state for the clock-anomaly witness: `lastTime` ahead of the
poll clock. -/
def mW6 : Monitor := ⟨[], [], 5⟩

/-- Environment for the clock-anomaly witness: every provider query fails
and the clock reads 3 < `lastTime`. -/
def envW6 : Env :=
  ⟨none, none, none, fun _ => none, none, none, none,
   fun _ => ⟨none, none, none, none, none, none⟩, 3⟩

/-- Witness for C6 at a concrete backwards clock step. -/
theorem duration_pos_witness :
    (envW6.now - mW6.lastTime ≤ 0) ∧
    0 < pollDuration mW6 envW6 ∧ pollDuration mW6 envW6 = 1 :=
  ⟨by norm_num [envW6, mW6], (duration_pos mW6 envW6).1,
   (duration_pos mW6 envW6).2 (by norm_num [envW6, mW6])⟩

/-- Claim C1: for every PID processed in a poll, the recorded
`diskRateBytesPerSec` is 0 without a cached previous sample; 0 when the
cumulative counter decreased; and the truncated quotient of the counter
difference by the elapsed seconds otherwise — never negative (the rate
lives in ℕ, as Go's `uint64`). -/
theorem diskRate_correct (m : Monitor) (env : Env) (pids : List Int)
    (pid : Int) (info : ProcessInfo)
    (hpids : env.pids = some pids) (hnodup : pids.Nodup) (hmem : pid ∈ pids)
    (hhandle : (m.procs.lookup pid).isSome ∨ ((env.proc pid).newProc).isSome)
    (hlook : (m.GetStats env).2.lastStats.lookup pid = some info) :
    info.DiskRate =
      rateOf (pollDuration m env) (m.lastStats.lookup pid)
        (sampledDiskBytes env pid) ∧
    (m.lastStats.lookup pid = none → info.DiskRate = 0) ∧
    (∀ last, m.lastStats.lookup pid = some last →
        sampledDiskBytes env pid < last.DiskBytes → info.DiskRate = 0) ∧
    (∀ last, m.lastStats.lookup pid = some last →
        last.DiskBytes ≤ sampledDiskBytes env pid →
        info.DiskRate =
          (⌊((sampledDiskBytes env pid - last.DiskBytes : Nat) : ℚ) /
              pollDuration m env⌋).toNat) ∧
    0 ≤ info.DiskRate := by
  have hinfo : info =
      mkInfo env (pollDuration m env) pid (m.lastStats.lookup pid) :=
    recorded_info_eq m env pids pid info hpids hnodup hmem hhandle hlook
  refine ⟨?_, ?_, ?_, ?_, Nat.zero_le _⟩
  · rw [hinfo]
    rfl
  · intro h
    rw [hinfo, h]
    rfl
  · intro last hl hlt
    rw [hinfo, hl]
    show rateOf (pollDuration m env) (some last) (sampledDiskBytes env pid) = 0
    exact if_neg (not_le.mpr hlt)
  · intro last hl hle
    rw [hinfo, hl]
    show rateOf (pollDuration m env) (some last) (sampledDiskBytes env pid) = _
    exact if_pos hle

/-- Environment for the live-poll witnesses: one live PID (100) whose
cumulative disk counter reads 2500, below the cached 3000 (counter
reset). -/
def envLive : Env :=
  { cpuPercent := some [12], virtualMemory := some ⟨16, 8, 8⟩,
    partitions := some [⟨"/dev/sda1", "/"⟩],
    usage := fun mp => if mp = "/" then some ⟨100, 40, 60, 40⟩ else none,
    hostInfo := some ⟨77, "host", "linux", "ubuntu"⟩,
    netCounters := some [⟨10, 20⟩],
    pids := some [100],
    proc := fun _ =>
      ⟨some ⟨100⟩, some "proc", some 2, some 4, some (2500, 0), some 3⟩,
    now := 2 }

/-- Engine state before the witness poll: a stale PID 99 and a cached
sample for PID 100 with cumulative disk bytes 3000. -/
def mPrev : Monitor :=
  { procs := [(99, ⟨99⟩), (100, ⟨100⟩)],
    lastStats := [(99, ⟨99, "old", 0, 0, 50, 0, 0⟩),
                  (100, ⟨100, "proc", 2, 4, 3000, 1000, 3⟩)],
    lastTime := 1 }

/-- The sample recorded for PID 100 in the witness poll: rate clamped to 0
after the counter reset. -/
def infoW : ProcessInfo := ⟨100, "proc", 2, 4, 2500, 0, 3⟩

/-- The cached previous sample of PID 100 in the witness poll. -/
def lastW : ProcessInfo := ⟨100, "proc", 2, 4, 3000, 1000, 3⟩

/-- Witness for C1 at the counter-reset scenario of the spec: cumulative
3000 then 2500 gives rate 0, not a negative value. -/
theorem diskRate_correct_witness :
    (mPrev.GetStats envLive).2.lastStats.lookup 100 = some infoW ∧
    infoW.DiskRate = 0 :=
  ⟨by decide,
   (diskRate_correct mPrev envLive [100] 100 infoW rfl (by decide) (by decide)
     (by decide) (by decide)).2.2.1 lastW (by decide) (by decide)⟩

/-- Claim C2: at the end of every poll whose PID enumeration succeeded,
every PID in the handle cache and in the sample cache was in that poll's
enumeration, and any PID absent from the enumeration has been removed from
both caches.  The Go cleanup deletes sample-cache keys only while ranging
over the handle cache, so the sample-cache half needs the engine invariant
that every sample-cache key has a cached handle — which holds for every
reachable engine state (`NewMonitor_covers`, `GetStats_covers`). -/
theorem cache_purged (m : Monitor) (env : Env) (pids : List Int)
    (h : env.pids = some pids)
    (hcov : ∀ kv ∈ m.lastStats, (m.procs.lookup kv.1).isSome = true) :
    (∀ kv ∈ (m.GetStats env).2.procs, kv.1 ∈ pids) ∧
    (∀ kv ∈ (m.GetStats env).2.lastStats, kv.1 ∈ pids) ∧
    (∀ pid, pid ∉ pids →
      (m.GetStats env).2.procs.lookup pid = none ∧
      (m.GetStats env).2.lastStats.lookup pid = none) := by
  have hmemls : ∀ kv ∈ (m.GetStats env).2.lastStats, kv.1 ∈ pids := by
    rw [GetStats_lastStats_some m env h]
    intro kv hkv
    obtain ⟨hmem, hQ⟩ := List.mem_filter.mp hkv
    have hsome : (((pollFold m env pids).procs).lookup kv.1).isSome = true :=
      foldl_covered env (pollDuration m env) pids
        ⟨[], m.procs, m.lastStats⟩ hcov kv hmem
    rw [hsome] at hQ
    simpa using hQ
  refine ⟨?_, hmemls, ?_⟩
  · rw [GetStats_procs_some m env h]
    intro kv hkv
    exact of_decide_eq_true (List.mem_filter.mp hkv).2
  · intro pid hpid
    constructor
    · rw [GetStats_procs_some m env h]
      exact lookup_eq_none_of_forall (fun kv hkv he =>
        hpid (he ▸ of_decide_eq_true (List.mem_filter.mp hkv).2))
    · exact lookup_eq_none_of_forall (fun kv hkv he =>
        hpid (he ▸ hmemls kv hkv))

/-- Witness for C2: after the witness poll enumerating only PID 100, the
stale PID 99 (cached handle and cached sample) is gone from both caches. -/
theorem cache_purged_witness :
    (mPrev.GetStats envLive).2.procs.lookup 99 = none ∧
    (mPrev.GetStats envLive).2.lastStats.lookup 99 = none :=
  (cache_purged mPrev envLive [100] rfl (by decide)).2.2 99 (by decide)

/-- Claim C7: `GetStats` returns a `nil` error on every execution path, and
each failed provider sub-query — the six system-wide queries and the
per-PID name/CPU/memory/IO/connections queries — only leaves the
corresponding snapshot (resp. recorded-sample) field(s) at their zero
value; a per-PID query failure never disqualifies the PID's sample. -/
theorem getStats_never_fails (m : Monitor) (env : Env) :
    (m.GetStats env).1.2 = none ∧
    (env.cpuPercent = none → (m.GetStats env).1.1.CPUUsage = 0) ∧
    (env.virtualMemory = none →
      (m.GetStats env).1.1.MemoryTotal = 0 ∧
      (m.GetStats env).1.1.MemoryUsed = 0 ∧
      (m.GetStats env).1.1.MemoryFree = 0) ∧
    (env.partitions = none → (m.GetStats env).1.1.Disks = []) ∧
    (env.hostInfo = none →
      (m.GetStats env).1.1.Uptime = 0 ∧
      (m.GetStats env).1.1.Hostname = "" ∧
      (m.GetStats env).1.1.OS = "" ∧
      (m.GetStats env).1.1.Platform = "") ∧
    (env.netCounters = none →
      (m.GetStats env).1.1.NetSent = 0 ∧
      (m.GetStats env).1.1.NetRecv = 0) ∧
    (env.pids = none →
      ((m.GetStats env).1.1.TopCPU = [] ∧
       (m.GetStats env).1.1.TopMem = [] ∧
       (m.GetStats env).1.1.TopDisk = [] ∧
       (m.GetStats env).1.1.TopNet = []) ∧
      (m.GetStats env).2 = m) ∧
    (∀ pids pid info, env.pids = some pids → pids.Nodup → pid ∈ pids →
      ((m.procs.lookup pid).isSome ∨ ((env.proc pid).newProc).isSome) →
      (m.GetStats env).2.lastStats.lookup pid = some info →
      ((env.proc pid).name = none → info.Name = "") ∧
      ((env.proc pid).cpuPercent = none → info.CPU = 0) ∧
      ((env.proc pid).memoryRSS = none → info.Mem = 0) ∧
      ((env.proc pid).ioBytes = none → info.DiskBytes = 0) ∧
      ((env.proc pid).connections = none → info.NetConns = 0)) := by
  refine ⟨rfl, ?_, ?_, ?_, ?_, ?_,
    (fun h => ⟨GetStats_tops_none m env h, GetStats_monitor_none m env h⟩),
    ?_⟩
  · intro h
    simp only [Monitor.GetStats]
    obtain ⟨t1, t2, t3, t4, m', hP⟩ := applyProcs_frame m env
      (applyNet env (applyHost env (applyDisks env
        (applyMemory env (applyCPU env {})))))
    rw [hP]
    obtain ⟨a, b, hN⟩ := applyNet_frame env
      (applyHost env (applyDisks env (applyMemory env (applyCPU env {}))))
    rw [hN]
    obtain ⟨u1, u2, u3, u4, hH⟩ := applyHost_frame env
      (applyDisks env (applyMemory env (applyCPU env {})))
    rw [hH]
    obtain ⟨d, hD⟩ := applyDisks_frame env (applyMemory env (applyCPU env {}))
    rw [hD]
    obtain ⟨x, y, z, hM⟩ := applyMemory_frame env (applyCPU env {})
    rw [hM]
    rw [applyCPU_none {} h]
  · intro h
    simp only [Monitor.GetStats]
    obtain ⟨t1, t2, t3, t4, m', hP⟩ := applyProcs_frame m env
      (applyNet env (applyHost env (applyDisks env
        (applyMemory env (applyCPU env {})))))
    rw [hP]
    obtain ⟨a, b, hN⟩ := applyNet_frame env
      (applyHost env (applyDisks env (applyMemory env (applyCPU env {}))))
    rw [hN]
    obtain ⟨u1, u2, u3, u4, hH⟩ := applyHost_frame env
      (applyDisks env (applyMemory env (applyCPU env {})))
    rw [hH]
    obtain ⟨d, hD⟩ := applyDisks_frame env (applyMemory env (applyCPU env {}))
    rw [hD]
    rw [applyMemory_none (applyCPU env {}) h]
    obtain ⟨c, hC⟩ := applyCPU_frame env {}
    rw [hC]
    exact ⟨rfl, rfl, rfl⟩
  · intro h
    simp only [Monitor.GetStats]
    obtain ⟨t1, t2, t3, t4, m', hP⟩ := applyProcs_frame m env
      (applyNet env (applyHost env (applyDisks env
        (applyMemory env (applyCPU env {})))))
    rw [hP]
    obtain ⟨a, b, hN⟩ := applyNet_frame env
      (applyHost env (applyDisks env (applyMemory env (applyCPU env {}))))
    rw [hN]
    obtain ⟨u1, u2, u3, u4, hH⟩ := applyHost_frame env
      (applyDisks env (applyMemory env (applyCPU env {})))
    rw [hH]
    rw [applyDisks_none (applyMemory env (applyCPU env {})) h]
    obtain ⟨x, y, z, hM⟩ := applyMemory_frame env (applyCPU env {})
    rw [hM]
    obtain ⟨c, hC⟩ := applyCPU_frame env {}
    rw [hC]
  · intro h
    simp only [Monitor.GetStats]
    obtain ⟨t1, t2, t3, t4, m', hP⟩ := applyProcs_frame m env
      (applyNet env (applyHost env (applyDisks env
        (applyMemory env (applyCPU env {})))))
    rw [hP]
    obtain ⟨a, b, hN⟩ := applyNet_frame env
      (applyHost env (applyDisks env (applyMemory env (applyCPU env {}))))
    rw [hN]
    rw [applyHost_none (applyDisks env (applyMemory env (applyCPU env {}))) h]
    obtain ⟨d, hD⟩ := applyDisks_frame env (applyMemory env (applyCPU env {}))
    rw [hD]
    obtain ⟨x, y, z, hM⟩ := applyMemory_frame env (applyCPU env {})
    rw [hM]
    obtain ⟨c, hC⟩ := applyCPU_frame env {}
    rw [hC]
    exact ⟨rfl, rfl, rfl, rfl⟩
  · intro h
    simp only [Monitor.GetStats]
    obtain ⟨t1, t2, t3, t4, m', hP⟩ := applyProcs_frame m env
      (applyNet env (applyHost env (applyDisks env
        (applyMemory env (applyCPU env {})))))
    rw [hP]
    rw [applyNet_none
      (applyHost env (applyDisks env (applyMemory env (applyCPU env {})))) h]
    obtain ⟨u1, u2, u3, u4, hH⟩ := applyHost_frame env
      (applyDisks env (applyMemory env (applyCPU env {})))
    rw [hH]
    obtain ⟨d, hD⟩ := applyDisks_frame env (applyMemory env (applyCPU env {}))
    rw [hD]
    obtain ⟨x, y, z, hM⟩ := applyMemory_frame env (applyCPU env {})
    rw [hM]
    obtain ⟨c, hC⟩ := applyCPU_frame env {}
    rw [hC]
    exact ⟨rfl, rfl⟩
  · intro pids pid info hpids hnodup hmem hhandle hlook
    have hinfo : info =
        mkInfo env (pollDuration m env) pid (m.lastStats.lookup pid) :=
      recorded_info_eq m env pids pid info hpids hnodup hmem hhandle hlook
    refine ⟨?_, ?_, ?_, ?_, ?_⟩
    · intro hq
      rw [hinfo]
      show ((env.proc pid).name.getD "") = ""
      rw [hq]
      rfl
    · intro hq
      rw [hinfo]
      show ((env.proc pid).cpuPercent.getD 0) = 0
      rw [hq]
      rfl
    · intro hq
      rw [hinfo]
      show ((env.proc pid).memoryRSS.getD 0) = 0
      rw [hq]
      rfl
    · intro hq
      rw [hinfo]
      show sampledDiskBytes env pid = 0
      unfold sampledDiskBytes
      rw [hq]
    · intro hq
      rw [hinfo]
      show ((env.proc pid).connections.getD 0) = 0
      rw [hq]
      rfl

/-- Environment for the per-PID-failure witness: PID 7 is enumerated and
its handle acquired, but all five of its metric queries fail. -/
def envW7 : Env :=
  { cpuPercent := none, virtualMemory := none, partitions := none,
    usage := fun _ => none, hostInfo := none, netCounters := none,
    pids := some [7],
    proc := fun _ => ⟨some ⟨7⟩, none, none, none, none, none⟩,
    now := 4 }

/-- The sample recorded for PID 7 in the per-PID-failure witness: present
in the poll, every field at its zero default. -/
def infoW7 : ProcessInfo := ⟨7, "", 0, 0, 0, 0, 0⟩

/-- Witness for C7 at a provider whose every query fails: the poll still
returns a nil error and an all-defaults snapshot; and at a poll whose
per-PID queries all fail: the PID still appears, fields zeroed. -/
theorem getStats_never_fails_witness :
    (mW6.GetStats envW6).1.2 = none ∧
    (mW6.GetStats envW6).1.1.CPUUsage = 0 ∧
    (mW6.GetStats envW6).1.1.MemoryTotal = 0 ∧
    (mW6.GetStats envW6).1.1.Disks = [] ∧
    (mW6.GetStats envW6).1.1.Hostname = "" ∧
    (mW6.GetStats envW6).1.1.NetSent = 0 ∧
    (mW6.GetStats envW6).1.1.TopCPU = [] ∧
    (mW6.GetStats envW6).2 = mW6 ∧
    (mW6.GetStats envW7).2.lastStats.lookup 7 = some infoW7 ∧
    infoW7.Name = "" ∧ infoW7.CPU = 0 ∧ infoW7.Mem = 0 ∧
    infoW7.DiskBytes = 0 ∧ infoW7.NetConns = 0 :=
  ⟨(getStats_never_fails mW6 envW6).1,
   (getStats_never_fails mW6 envW6).2.1 rfl,
   ((getStats_never_fails mW6 envW6).2.2.1 rfl).1,
   (getStats_never_fails mW6 envW6).2.2.2.1 rfl,
   ((getStats_never_fails mW6 envW6).2.2.2.2.1 rfl).2.1,
   ((getStats_never_fails mW6 envW6).2.2.2.2.2.1 rfl).1,
   ((getStats_never_fails mW6 envW6).2.2.2.2.2.2.1 rfl).1.1,
   ((getStats_never_fails mW6 envW6).2.2.2.2.2.2.1 rfl).2,
   by decide,
   ((getStats_never_fails mW6 envW7).2.2.2.2.2.2.2 [7] 7 infoW7 rfl
     (by decide) (by decide) (by decide) (by decide)).1 rfl,
   ((getStats_never_fails mW6 envW7).2.2.2.2.2.2.2 [7] 7 infoW7 rfl
     (by decide) (by decide) (by decide) (by decide)).2.1 rfl,
   ((getStats_never_fails mW6 envW7).2.2.2.2.2.2.2 [7] 7 infoW7 rfl
     (by decide) (by decide) (by decide) (by decide)).2.2.1 rfl,
   ((getStats_never_fails mW6 envW7).2.2.2.2.2.2.2 [7] 7 infoW7 rfl
     (by decide) (by decide) (by decide) (by decide)).2.2.2.1 rfl,
   ((getStats_never_fails mW6 envW7).2.2.2.2.2.2.2 [7] 7 infoW7 rfl
     (by decide) (by decide) (by decide) (by decide)).2.2.2.2 rfl⟩

/-- Claim C8: the snapshot's disk list holds exactly one usage record per
enumerated non-loopback partition whose usage query succeeded, in
enumeration order; failed mounts are skipped with no placeholder. -/
theorem disks_resilient (m : Monitor) (env : Env) (parts : List PartitionStat)
    (h : env.partitions = some parts) :
    (m.GetStats env).1.1.Disks =
      (parts.filter (fun p => !(stringHasPre p.device "/dev/loop"))).filterMap
        (fun p => (env.usage p.mountpoint).map (mkDiskInfo p)) :=
  GetStats_disks_some m env h

/-- Environment for the C8 witness: three real mounts of which `/data`'s
usage query fails, plus a loop device. -/
def envDisks : Env :=
  { cpuPercent := none, virtualMemory := none,
    partitions := some [⟨"/dev/sda1", "/"⟩, ⟨"/dev/sdb1", "/data"⟩,
      ⟨"/dev/sdc1", "/var"⟩, ⟨"/dev/loop7", "/snap/x"⟩],
    usage := fun mp =>
      if mp = "/" then some ⟨100, 40, 60, 40⟩
      else if mp = "/var" then some ⟨50, 10, 40, 20⟩
      else none,
    hostInfo := none, netCounters := none, pids := none,
    proc := fun _ => ⟨none, none, none, none, none, none⟩, now := 0 }

/-- Witness for C8: `/` and `/var` are reported, the failed `/data` and the
loop device are skipped, with no placeholder inserted. -/
theorem disks_resilient_witness :
    (mW6.GetStats envDisks).1.1.Disks =
      [mkDiskInfo ⟨"/dev/sda1", "/"⟩ ⟨100, 40, 60, 40⟩,
       mkDiskInfo ⟨"/dev/sdc1", "/var"⟩ ⟨50, 10, 40, 20⟩] :=
  (disks_resilient mW6 envDisks _ rfl).trans (by decide)

/-- Claim C9 counterexample: in a poll whose PID enumeration fails, the
engine's `lastTime` is left at its previous value, not the poll's current
time — so "at the end of every poll, `lastTime` equals that poll's
timestamp" is false as stated. -/
theorem lastTime_stale_counterexample :
    (mW6.GetStats envW6).2.lastTime ≠ envW6.now := by decide

/-- Claim C9 (amended): at the end of every poll whose PID enumeration
succeeds, `lastTime` equals the timestamp taken during that poll, so the
next poll's elapsed duration is measured from this poll. -/
theorem lastTime_updated (m : Monitor) (env : Env) (pids : List Int)
    (h : env.pids = some pids) :
    (m.GetStats env).2.lastTime = env.now :=
  GetStats_lastTime_some m env h

/-- Witness for the amended C9 at the live witness poll. -/
theorem lastTime_updated_witness :
    (mPrev.GetStats envLive).2.lastTime = envLive.now :=
  lastTime_updated mPrev envLive [100] rfl

/-- Claim C10: `getTop` never mutates its input — the caller's slice after
the call is unchanged, because a private copy is sorted — and the four
Top-N lists of one poll are each computed by `getTop` from the same
untouched sample list. -/
theorem getTop_no_mutation (procs : List ProcessInfo)
    (less : ProcessInfo → ProcessInfo → Bool) (limit : Nat)
    (m : Monitor) (env : Env) (pids : List Int) (h : env.pids = some pids) :
    (getTopGo procs less limit).2 = procs ∧
    (getTopGo procs less limit).1 = getTop procs less limit ∧
    ((m.GetStats env).1.1.TopCPU =
        getTop (pollFold m env pids).infos cmpCPU 5 ∧
     (m.GetStats env).1.1.TopMem =
        getTop (pollFold m env pids).infos cmpMem 5 ∧
     (m.GetStats env).1.1.TopDisk =
        getTop (pollFold m env pids).infos cmpDisk 5 ∧
     (m.GetStats env).1.1.TopNet =
        getTop (pollFold m env pids).infos cmpNet 5) := by
  refine ⟨?_, ?_, GetStats_tops m env h⟩
  · unfold getTopGo
    split
    · rfl
    · rfl
  · unfold getTopGo getTop
    split
    · rfl
    · rfl

/-- Witness for C10 at concrete inputs. -/
theorem getTop_no_mutation_witness :
    (getTopGo [w1, w2, w3] cmpCPU 5).2 = [w1, w2, w3] ∧
    (mPrev.GetStats envLive).1.1.TopCPU =
      getTop (pollFold mPrev envLive [100]).infos cmpCPU 5 :=
  ⟨(getTop_no_mutation [w1, w2, w3] cmpCPU 5 mPrev envLive [100] rfl).1,
   (getTop_no_mutation [w1, w2, w3] cmpCPU 5 mPrev envLive [100] rfl).2.2.1⟩

end Atlas
